import Mathlib

/-!
Verification of the consent-gated access-control and audit core of the
Patient-Management-System repository, together with two frontend components
(`PrivateRoute` and the registration form's `handleSubmit`).

The backend core (ConsentStore, ConsentEvaluator, AccessController, AuditLog)
is described by the specification but its Python sources are not part of the
frontend tree; those definitions are therefore modelled from the spec, as
marked in their doc comments.  The frontend definitions (`privateRoute`,
`handleSubmit`, `buildRegisterData`) are direct translations of the
TypeScript sources.  Time is modelled as `Nat`; identifiers as `String`.
-/

namespace PMS

/-- Mirrors `ConsentType` in `src/frontend/src/types/index.ts`
(`'view' | 'edit' | 'share'`). -/
inductive ConsentType
  | view
  | edit
  | share
deriving DecidableEq, Repr

/-- Modelled from the spec: the explicit rank function realizing the total
order `view < edit < share` (§3, §9 "Total order over consent types"). -/
def ConsentType.rank : ConsentType → Nat
  | .view => 0
  | .edit => 1
  | .share => 2

/-- Mirrors `ConsentStatus` in `src/frontend/src/types/index.ts`
(`'active' | 'expired' | 'revoked'`). -/
inductive ConsentStatus
  | active
  | expired
  | revoked
deriving DecidableEq, Repr

/-- Mirrors the `Consent` record of `src/frontend/src/types/index.ts`:
note it carries a stored `status` field, which per the spec is display
metadata only and must never be trusted by the evaluator. -/
structure Consent where
  consent_id : Nat
  patient_id : String
  facility_id : String
  consent_type : ConsentType
  granted_at : Nat
  expires_at : Option Nat
  revoked_at : Option Nat
  purpose : String
  status : ConsentStatus
deriving DecidableEq, Repr

/-- Modelled from the spec: derived `effective_status`, recomputed at
evaluation time from `revoked_at`, `expires_at` and the clock (§3):
`revoked` if `revoked_at` is set; else `expired` if `expires_at` is set and
in the past; else `active`.  The stored `status` field is ignored. -/
def effectiveStatus (c : Consent) (now : Nat) : ConsentStatus :=
  if c.revoked_at.isSome then .revoked
  else
    match c.expires_at with
    | some e => if e < now then .expired else .active
    | none => .active

/-- Mirrors `AccessResult` in `src/frontend/src/types/index.ts`
(`'allowed' | 'denied'`). -/
inductive Verdict
  | allowed
  | denied
deriving DecidableEq, Repr

/-- Modelled from the spec: the structured reason codes of §4.2. -/
inductive Reason
  | consent_sufficient
  | no_consent
  | insufficient_consent_level
  | revoked
  | expired
deriving DecidableEq, Repr

/-- Modelled from the spec: a verdict paired with a reason code (§4.2). -/
structure Decision where
  result : Verdict
  reason : Reason
deriving DecidableEq, Repr

/-- Modelled from the spec: step 2 of the evaluation algorithm — filter the
candidate consents to those whose recomputed `effective_status` is `active`. -/
def activeConsents (consents : List Consent) (now : Nat) : List Consent :=
  consents.filter (fun c => decide (effectiveStatus c now = ConsentStatus.active))

/-- Modelled from the spec: step 3 — the maximum `consent_type` rank among a
list of consents, by the hierarchy order `share > edit > view`. -/
def maxRank (consents : List Consent) : Nat :=
  (consents.map (fun c => c.consent_type.rank)).foldr Nat.max 0

/-- Modelled from the spec: the ConsentEvaluator's pure decision function
(§4.2).  Recompute each consent's status at `now`, filter to active; if none
remain the verdict is `denied` with reason `revoked` if some consent is
revoked, else `expired` if some consent is expired, else `no_consent`
(tie-break of §4.2 step 5: prefer `revoked`).  Otherwise compare the maximum
active rank with the requested action's rank. -/
def evaluate (consents : List Consent) (action : ConsentType) (now : Nat) : Decision :=
  if (activeConsents consents now).isEmpty then
    if consents.any (fun c => decide (effectiveStatus c now = ConsentStatus.revoked)) then
      ⟨.denied, .revoked⟩
    else if consents.any (fun c => decide (effectiveStatus c now = ConsentStatus.expired)) then
      ⟨.denied, .expired⟩
    else
      ⟨.denied, .no_consent⟩
  else if action.rank ≤ maxRank (activeConsents consents now) then
    ⟨.allowed, .consent_sufficient⟩
  else
    ⟨.denied, .insufficient_consent_level⟩

/-- Modelled from the spec: the error taxonomy of §7. -/
inductive CoreError
  | validationError
  | notFoundError
  | conflictError
  | auditWriteError
deriving DecidableEq, Repr

/-- Mirrors the `AccessLog` record of `src/frontend/src/types/index.ts`
restricted to the core fields of §3 (`AccessLogEntry`); the optional
display-only `patient_name`/`worker_name`/`facility_name` joins are
presentation data and are omitted. -/
structure AccessLogEntry where
  log_id : Nat
  patient_id : String
  accessed_by : String
  facility_id : String
  action : ConsentType
  result : Verdict
  reason : Reason
  timestamp : Nat
  ip_address : Option String
deriving DecidableEq, Repr

/-- Modelled from the spec: the AuditLog store (§4.4).  `storageOk` models
whether the underlying durable storage is available; when it is not, an
append fails with `AuditWriteError` rather than failing silently. -/
structure AuditLog where
  entries : List AccessLogEntry
  nextLogId : Nat
  storageOk : Bool
deriving DecidableEq, Repr

/-- Modelled from the spec: `AuditLog.Append` (§4.4) — assigns `log_id` and
`timestamp`, persists by appending, returns the stored entry; a storage
failure propagates as `AuditWriteError`. -/
def AuditLog.append (log : AuditLog) (pid aby fid : String) (action : ConsentType)
    (d : Decision) (now : Nat) (ip : Option String) :
    Except CoreError (AccessLogEntry × AuditLog) :=
  if log.storageOk then
    let e : AccessLogEntry :=
      ⟨log.nextLogId, pid, aby, fid, action, d.result, d.reason, now, ip⟩
    .ok (e, ⟨log.entries ++ [e], log.nextLogId + 1, log.storageOk⟩)
  else
    .error .auditWriteError

/-- Modelled from the spec: the shared persisted state (§6) — the `consents`
table with its id counter, and the `access_logs` table. -/
structure SystemState where
  consents : List Consent
  nextConsentId : Nat
  audit : AuditLog
deriving DecidableEq, Repr

/-- Modelled from the spec: parsing of the three recognized consent-type /
action values (§4.1, §4.3); any other string is malformed. -/
def parseConsentType (s : String) : Option ConsentType :=
  if s = "view" then some .view
  else if s = "edit" then some .edit
  else if s = "share" then some .share
  else none

/-- Modelled from the spec: `ConsentStore.FindForPair` (§4.1) — all consents
of any status for the pair. -/
def findForPair (s : SystemState) (pid fid : String) : List Consent :=
  s.consents.filter (fun c => decide (c.patient_id = pid ∧ c.facility_id = fid))

/-- Modelled from the spec: `ConsentStore.Grant` (§4.1).  Validates the
consent type and that `expires_at`, when given, is strictly after now;
on success creates a fresh consent with `revoked_at = None`, without
checking for or merging with existing consents for the same pair.  A
validation failure changes no state. -/
def grant (s : SystemState) (pid fid ctype purpose : String)
    (expires : Option Nat) (now : Nat) : Except CoreError Consent × SystemState :=
  match parseConsentType ctype with
  | none => (.error .validationError, s)
  | some ct =>
    if expires.any (fun e => decide (e ≤ now)) then
      (.error .validationError, s)
    else
      let c : Consent :=
        ⟨s.nextConsentId, pid, fid, ct, now, expires, none, purpose, .active⟩
      (.ok c, { s with consents := s.consents ++ [c], nextConsentId := s.nextConsentId + 1 })

/-- Modelled from the spec: `ConsentStore.Revoke` (§4.1) — sets `revoked_at`
to now if currently unset; `NotFoundError` if no such consent id exists,
`ConflictError` if already revoked.  Failing calls change no state. -/
def revoke (s : SystemState) (cid : Nat) (now : Nat) :
    Except CoreError Consent × SystemState :=
  match s.consents.find? (fun c => decide (c.consent_id = cid)) with
  | none => (.error .notFoundError, s)
  | some c =>
    if c.revoked_at.isSome then
      (.error .conflictError, s)
    else
      let c' : Consent := { c with revoked_at := some now, status := .revoked }
      (.ok c',
       { s with consents :=
          s.consents.map (fun x => if x.consent_id = cid then c' else x) })

/-- Modelled from the spec: one access-check request as received by
`AccessController.CheckAndLog` (§4.3); the action arrives as a raw string
and is validated by the controller. -/
structure AccessRequest where
  patient_id : String
  facility_id : String
  accessed_by : String
  action : String
  ip_address : Option String
deriving DecidableEq, Repr

/-- Modelled from the spec: `AccessController.CheckAndLog` (§4.3).
A malformed action fails fast with `ValidationError` before any audit entry
is written; otherwise the consents for the pair are fetched, evaluated, and
the decision is unconditionally appended to the audit log before being
returned; a failing append is fatal for the whole request and no verdict is
released. -/
def checkAndLog (s : SystemState) (req : AccessRequest) (now : Nat) :
    Except CoreError Decision × SystemState :=
  match parseConsentType req.action with
  | none => (.error .validationError, s)
  | some act =>
    let d := evaluate (findForPair s req.patient_id req.facility_id) act now
    match s.audit.append req.patient_id req.accessed_by req.facility_id act d now
        req.ip_address with
    | .error e => (.error e, s)
    | .ok (_, log') => (.ok d, { s with audit := log' })

/-- Modelled from the spec: a sequence of independent `CheckAndLog` calls
(§5), each with its own request and clock reading, threading the state. -/
def runAll (s : SystemState) : List (AccessRequest × Nat) → SystemState
  | [] => s
  | (r, t) :: rest => runAll (checkAndLog s r t).2 rest

/-- Mirrors the `user.user` object read by `PrivateRoute`
(`src/frontend/src/components/PrivateRoute.tsx`): only the `role` string is
consulted. -/
structure UserRecord where
  role : String
deriving DecidableEq, Repr

/-- Mirrors the `UserProfile` shape consumed via `useAuth()`: the component
reads `user.user.role`. -/
structure UserProfile where
  user : UserRecord
deriving DecidableEq, Repr

/-- What one render of `PrivateRoute` produces: a loading placeholder, a
`Navigate` redirect, or the protected children. -/
inductive RouteRender
  | loadingView
  | redirect (target : String)
  | children
deriving DecidableEq, Repr

/-- Mirrors the `dashboardMap` object literal of
`src/frontend/src/components/PrivateRoute.tsx` lines 32-36; a lookup of a
key outside the map is `none` (JS `undefined`). -/
def dashboardMap (role : String) : Option String :=
  if role = "patient" then some "/patient"
  else if role = "healthcare_worker" then some "/worker"
  else if role = "admin" then some "/admin"
  else none

/-- Mirrors `PrivateRoute` (`src/frontend/src/components/PrivateRoute.tsx`
lines 10-41): loading guard, then redirect to `/login` when no user, then
redirect to the role's own dashboard (`|| '/login'`) when the role is not in
`allowedRoles`, else the children. -/
def privateRoute (loading : Bool) (user : Option UserProfile)
    (allowedRoles : List String) : RouteRender :=
  if loading then
    .loadingView
  else
    match user with
    | none => .redirect "/login"
    | some u =>
      if ¬ (u.user.role ∈ allowedRoles) then
        .redirect ((dashboardMap u.user.role).getD "/login")
      else
        .children

/-- Mirrors the `formData` state of the Register page
(`src/unnamed/part_000` lines 9-21): all fields are strings. -/
structure RegisterForm where
  email : String
  password : String
  confirmPassword : String
  role : String
  first_name : String
  last_name : String
  national_id : String
  date_of_birth : String
  facility_id : String
  license_number : String
  job_title : String
deriving DecidableEq, Repr

/-- The `formData` object viewed as a JS object: an association list from
field names to string values, in declaration order. -/
def RegisterForm.fields (f : RegisterForm) : List (String × String) :=
  [("email", f.email), ("password", f.password),
   ("confirmPassword", f.confirmPassword), ("role", f.role),
   ("first_name", f.first_name), ("last_name", f.last_name),
   ("national_id", f.national_id), ("date_of_birth", f.date_of_birth),
   ("facility_id", f.facility_id), ("license_number", f.license_number),
   ("job_title", f.job_title)]

/-- Removal of one key from a JS object modelled as an association list
(the `delete (registerData as any).k` statements and the rest-spread that
drops `confirmPassword`). -/
def removeField (obj : List (String × String)) (k : String) :
    List (String × String) :=
  obj.filter (fun kv => decide (kv.1 ≠ k))

/-- Mirrors the payload construction inside `handleSubmit`
(`src/unnamed/part_000` lines 70-85): destructure away `confirmPassword`,
then delete the patient-only fields when the role is not `patient`, then
delete the worker-only fields when the role is not `healthcare_worker`. -/
def buildRegisterData (f : RegisterForm) : List (String × String) :=
  let d0 := removeField f.fields "confirmPassword"
  let d1 :=
    if f.role ≠ "patient" then
      removeField (removeField (removeField (removeField d0 "first_name")
        "last_name") "national_id") "date_of_birth"
    else d0
  if f.role ≠ "healthcare_worker" then
    removeField (removeField (removeField d1 "facility_id") "license_number")
      "job_title"
  else d1

/-- Mirrors the validation flow of `handleSubmit` (`src/unnamed/part_000`
lines 45-86): mismatching passwords or an empty required field for the
selected role abort the submission (`none`); otherwise `register` is called
with the built payload (`some`).  Empty strings are the falsy case of the
source's `!formData.x` checks. -/
def handleSubmit (f : RegisterForm) : Option (List (String × String)) :=
  if f.password ≠ f.confirmPassword then
    none
  else if f.role = "patient" ∧ (f.first_name = "" ∨ f.last_name = "" ∨
      f.national_id = "" ∨ f.date_of_birth = "") then
    none
  else if f.role = "healthcare_worker" ∧ (f.facility_id = "" ∨
      f.license_number = "" ∨ f.job_title = "") then
    none
  else
    some (buildRegisterData f)

/-- Sample consent used to exercise the theorems on concrete inputs:
an unexpired, unrevoked `share` grant from P1 to F1. -/
def cShare : Consent := ⟨1, "P1", "F1", .share, 0, none, none, "checkup", .active⟩

/-- Sample consent: an unexpired, unrevoked `view` grant from P1 to F1. -/
def cView : Consent := ⟨2, "P1", "F1", .view, 0, none, none, "checkup", .active⟩

/-- Sample consent: a `view` grant revoked at time 1. -/
def cRevoked : Consent := ⟨3, "P1", "F1", .view, 0, none, some 1, "checkup", .revoked⟩

/-- Sample consent: a `view` grant that expired at time 1. -/
def cExpired : Consent := ⟨4, "P1", "F1", .view, 0, some 1, none, "checkup", .expired⟩

/-- Sample audit log with working storage. -/
def emptyAudit : AuditLog := ⟨[], 0, true⟩

/-- Sample audit log whose storage is unavailable. -/
def downAudit : AuditLog := ⟨[], 0, false⟩

/-- Sample system state: one active `view` consent, working audit storage. -/
def sampleState : SystemState := ⟨[cView], 5, emptyAudit⟩

/-- Sample system state with failed audit storage. -/
def downState : SystemState := ⟨[cView], 5, downAudit⟩

/-- Sample access request for a `view` action on (P1, F1). -/
def reqView : AccessRequest := ⟨"P1", "F1", "W1", "view", none⟩

/-- Sample access request for a `view` action on the consent-less pair (P1, F2). -/
def reqViewF2 : AccessRequest := ⟨"P1", "F2", "W1", "view", none⟩

/-- Sample registration form: an admin with matching passwords. -/
def sampleForm : RegisterForm :=
  ⟨"a@b.c", "password1", "password1", "admin", "", "", "", "", "", "", ""⟩

/-! ### Helper lemmas -/

theorem mem_activeConsents {consents : List Consent} {now : Nat} {c : Consent} :
    c ∈ activeConsents consents now ↔
      c ∈ consents ∧ effectiveStatus c now = ConsentStatus.active := by
  simp [activeConsents, List.mem_filter]

theorem le_foldr_max (r : Nat) (xs : List Nat) :
    r ≤ xs.foldr Nat.max 0 ↔ r = 0 ∨ ∃ x ∈ xs, r ≤ x := by
  induction xs with
  | nil => simp [Nat.le_zero]
  | cons a l ih =>
    simp only [List.foldr_cons, List.mem_cons]
    rw [show Nat.max a (List.foldr Nat.max 0 l) = max a (List.foldr Nat.max 0 l) from rfl,
      le_max_iff]
    constructor
    · intro h
      rcases h with h2 | h2
      · exact Or.inr ⟨a, Or.inl rfl, h2⟩
      · rcases ih.mp h2 with h3 | ⟨x, hx, hrx⟩
        · exact Or.inl h3
        · exact Or.inr ⟨x, Or.inr hx, hrx⟩
    · intro h
      rcases h with h | ⟨x, hx | hx, hrx⟩
      · exact Or.inl (h ▸ Nat.zero_le a)
      · subst hx; exact Or.inl hrx
      · exact Or.inr (ih.mpr (Or.inr ⟨x, hx, hrx⟩))

theorem le_maxRank {consents : List Consent} (hne : consents ≠ []) (r : Nat) :
    r ≤ maxRank consents ↔ ∃ c ∈ consents, r ≤ c.consent_type.rank := by
  unfold maxRank
  rw [le_foldr_max]
  constructor
  · rintro (h | ⟨x, hx, hrx⟩)
    · obtain ⟨c, hc⟩ := List.exists_mem_of_ne_nil consents hne
      exact ⟨c, hc, by omega⟩
    · rcases List.mem_map.mp hx with ⟨c, hc, rfl⟩
      exact ⟨c, hc, hrx⟩
  · rintro ⟨c, hc, hrc⟩
    exact Or.inr ⟨_, List.mem_map_of_mem _ hc, hrc⟩

/-! ### Claim theorems -/

/-- C1: the evaluation yields `allowed`/`consent_sufficient` iff some consent
active at `now` has a `consent_type` rank (in the order view < edit < share)
at least the requested action's rank; in particular an active `share` consent
allows every action, and a lone active `view` consent yields
`denied`/`insufficient_consent_level` for `edit` and `share`. -/
theorem evaluate_hierarchy (consents : List Consent) (action : ConsentType) (now : Nat) :
    (evaluate consents action now = ⟨.allowed, .consent_sufficient⟩ ↔
      ∃ c ∈ consents, effectiveStatus c now = ConsentStatus.active ∧
        action.rank ≤ c.consent_type.rank)
    ∧ ((∃ c ∈ consents, effectiveStatus c now = ConsentStatus.active ∧
          c.consent_type = ConsentType.share) →
        ∀ a : ConsentType, (evaluate consents a now).result = Verdict.allowed)
    ∧ (∀ c : Consent, effectiveStatus c now = ConsentStatus.active →
        c.consent_type = ConsentType.view →
        ∀ a : ConsentType, (a = ConsentType.edit ∨ a = ConsentType.share) →
          evaluate [c] a now = ⟨.denied, .insufficient_consent_level⟩) := by
  have main : ∀ act : ConsentType, evaluate consents act now =
      ⟨.allowed, .consent_sufficient⟩ ↔
      ∃ c ∈ consents, effectiveStatus c now = ConsentStatus.active ∧
        act.rank ≤ c.consent_type.rank := by
    intro act
    by_cases hA : (activeConsents consents now).isEmpty
    · have hnil : activeConsents consents now = [] := by
        simpa [List.isEmpty_iff] using hA
      constructor
      · intro h
        rw [evaluate, if_pos hA] at h
        split_ifs at h <;> simp_all
      · rintro ⟨c, hc, hact, _⟩
        have hmem : c ∈ activeConsents consents now :=
          mem_activeConsents.mpr ⟨hc, hact⟩
        rw [hnil] at hmem
        simp at hmem
    · have hnil : activeConsents consents now ≠ [] := by
        intro h; rw [h] at hA; simp at hA
      rw [evaluate, if_neg hA]
      by_cases hle : act.rank ≤ maxRank (activeConsents consents now)
      · rw [if_pos hle]
        simp only [true_iff]
        rcases (le_maxRank hnil _).mp hle with ⟨c, hc, hrc⟩
        rcases mem_activeConsents.mp hc with ⟨hmem, hact⟩
        exact ⟨c, hmem, hact, hrc⟩
      · rw [if_neg hle]
        constructor
        · intro h; simp at h
        · rintro ⟨c, hc, hact, hrc⟩
          exact absurd ((le_maxRank hnil _).mpr
            ⟨c, mem_activeConsents.mpr ⟨hc, hact⟩, hrc⟩) hle
  refine ⟨main action, ?_, ?_⟩
  · rintro ⟨c, hc, hact, hty⟩ a
    have h := (main a).mpr ⟨c, hc, hact, by
      cases a <;> simp [ConsentType.rank, hty]⟩
    rw [h]
  · intro c hact hty a ha
    have h1 : activeConsents [c] now = [c] := by
      simp [activeConsents, hact]
    have hA : ¬ (activeConsents [c] now).isEmpty := by simp [h1]
    have hmax : maxRank (activeConsents [c] now) = 0 := by
      simp [h1, maxRank, hty, ConsentType.rank]
    rcases ha with rfl | rfl <;>
      simp [evaluate, hA, hmax, ConsentType.rank]

/-- Witness for C1 at concrete inputs: a single active `share` consent allows
`edit`, and a lone active `view` consent is denied `share` for insufficiency. -/
theorem evaluate_hierarchy_witness :
    (evaluate [cShare] ConsentType.edit 5).result = Verdict.allowed ∧
    evaluate [cView] ConsentType.share 5 =
      ⟨.denied, .insufficient_consent_level⟩ := by
  constructor
  · exact (evaluate_hierarchy [cShare] ConsentType.edit 5).2.1
      ⟨cShare, by simp, by decide, by decide⟩ ConsentType.edit
  · exact (evaluate_hierarchy [cView] ConsentType.share 5).2.2 cView
      (by decide) (by decide) ConsentType.share (Or.inr rfl)

theorem effectiveStatus_setStatus (c : Consent) (st : ConsentStatus) (now : Nat) :
    effectiveStatus { c with status := st } now = effectiveStatus c now := rfl

theorem activeConsents_setStatus (consents : List Consent) (st : ConsentStatus) (now : Nat) :
    activeConsents (consents.map fun x => { x with status := st }) now =
      (activeConsents consents now).map (fun x => { x with status := st }) := by
  induction consents with
  | nil => rfl
  | cons a l ih =>
    simp only [activeConsents] at ih ⊢
    simp only [List.map_cons, List.filter_cons, effectiveStatus_setStatus]
    by_cases h : effectiveStatus a now = ConsentStatus.active <;>
      simp [h, ih]

theorem maxRank_setStatus (l : List Consent) (st : ConsentStatus) :
    maxRank (l.map fun x => { x with status := st }) = maxRank l := by
  have : (l.map fun x => ({ x with status := st } : Consent)).map
      (fun c => c.consent_type.rank) = l.map (fun c => c.consent_type.rank) := by
    rw [List.map_map]; rfl
  simp [maxRank, this]

theorem evaluate_setStatus (consents : List Consent) (action : ConsentType)
    (now : Nat) (st : ConsentStatus) :
    evaluate (consents.map fun x => { x with status := st }) action now =
      evaluate consents action now := by
  have hrev : (consents.map fun x => ({ x with status := st } : Consent)).any
      (fun c => decide (effectiveStatus c now = ConsentStatus.revoked)) =
      consents.any (fun c => decide (effectiveStatus c now = ConsentStatus.revoked)) := by
    rw [List.any_map]; rfl
  have hexp : (consents.map fun x => ({ x with status := st } : Consent)).any
      (fun c => decide (effectiveStatus c now = ConsentStatus.expired)) =
      consents.any (fun c => decide (effectiveStatus c now = ConsentStatus.expired)) := by
    rw [List.any_map]; rfl
  have hemp : ((activeConsents consents now).map
      (fun x => ({ x with status := st } : Consent))).isEmpty =
      (activeConsents consents now).isEmpty := by
    cases activeConsents consents now <;> rfl
  simp only [evaluate, activeConsents_setStatus, maxRank_setStatus, hrev, hexp, hemp]

/-- C2: `effective_status` is recomputed at evaluation time as a pure function
of `revoked_at`, `expires_at` and `now` — `revoked` if `revoked_at` is set,
else `expired` if `expires_at` is set and past, else `active` — and the
evaluation ignores the stored, independently mutable `status` field: rewriting
it arbitrarily changes neither a consent's effective status nor any verdict. -/
theorem effective_status_recomputed (c : Consent) (now : Nat) :
    (c.revoked_at.isSome → effectiveStatus c now = ConsentStatus.revoked)
    ∧ (c.revoked_at = none → ∀ e, c.expires_at = some e → e < now →
        effectiveStatus c now = ConsentStatus.expired)
    ∧ (c.revoked_at = none → (∀ e, c.expires_at = some e → now ≤ e) →
        effectiveStatus c now = ConsentStatus.active)
    ∧ (∀ st, effectiveStatus { c with status := st } now = effectiveStatus c now)
    ∧ (∀ (consents : List Consent) (action : ConsentType) (st : ConsentStatus),
        evaluate (consents.map fun x => { x with status := st }) action now =
          evaluate consents action now) := by
  refine ⟨?_, ?_, ?_, fun st => effectiveStatus_setStatus c st now,
    fun cs a st => evaluate_setStatus cs a now st⟩
  · intro h
    simp [effectiveStatus, h]
  · intro h e he hlt
    simp [effectiveStatus, h, he, hlt]
  · intro h he
    unfold effectiveStatus
    rw [h]
    simp only [Option.isSome_none, Bool.false_eq_true, if_false]
    cases hx : c.expires_at with
    | none => rfl
    | some e => simp [Nat.not_lt.mpr (he e hx)]

/-- Witness for C2 at concrete inputs: a revoked, an expired and an active
sample consent each get the predicted recomputed status at time 5. -/
theorem effective_status_recomputed_witness :
    effectiveStatus cRevoked 5 = ConsentStatus.revoked ∧
    effectiveStatus cExpired 5 = ConsentStatus.expired ∧
    effectiveStatus cView 5 = ConsentStatus.active :=
  ⟨(effective_status_recomputed cRevoked 5).1 (by decide),
   (effective_status_recomputed cExpired 5).2.1 (by decide) 1 (by decide) (by decide),
   (effective_status_recomputed cView 5).2.2.1 (by decide)
     (fun _ he => Option.noConfusion he)⟩

/-- C5: when no consent is active at `now` the verdict is always `denied`,
with reason `no_consent` when no consent exists at all, `revoked` when some
existing consent is revoked (taking precedence also when expired ones are
present), and `expired` when consents exist and none is revoked. -/
theorem denial_reason_precision (consents : List Consent) (action : ConsentType)
    (now : Nat) (hno : ∀ c ∈ consents, effectiveStatus c now ≠ ConsentStatus.active) :
    (evaluate consents action now).result = Verdict.denied
    ∧ (consents = [] → (evaluate consents action now).reason = Reason.no_consent)
    ∧ ((∃ c ∈ consents, effectiveStatus c now = ConsentStatus.revoked) →
        (evaluate consents action now).reason = Reason.revoked)
    ∧ (consents ≠ [] →
        (∀ c ∈ consents, effectiveStatus c now ≠ ConsentStatus.revoked) →
        (evaluate consents action now).reason = Reason.expired) := by
  have hnil : activeConsents consents now = [] := by
    rw [activeConsents, List.filter_eq_nil_iff]
    intro c hc
    simpa using hno c hc
  have hA : (activeConsents consents now).isEmpty := by simp [hnil]
  refine ⟨?_, ?_, ?_, ?_⟩
  · unfold evaluate
    rw [if_pos hA]
    split_ifs <;> rfl
  · intro h
    subst h
    rfl
  · rintro ⟨c, hc, hrev⟩
    have hany : consents.any
        (fun c => decide (effectiveStatus c now = ConsentStatus.revoked)) = true := by
      rw [List.any_eq_true]
      exact ⟨c, hc, by simp [hrev]⟩
    unfold evaluate
    rw [if_pos hA, if_pos hany]
  · intro hne hnrev
    have hanyrev : ¬ (consents.any
        (fun c => decide (effectiveStatus c now = ConsentStatus.revoked)) = true) := by
      rw [List.any_eq_true]
      rintro ⟨c, hc, hdec⟩
      exact hnrev c hc (by simpa using hdec)
    have hanyexp : consents.any
        (fun c => decide (effectiveStatus c now = ConsentStatus.expired)) = true := by
      obtain ⟨c, hc⟩ := List.exists_mem_of_ne_nil consents hne
      rw [List.any_eq_true]
      refine ⟨c, hc, ?_⟩
      have h1 := hno c hc
      have h2 := hnrev c hc
      cases hx : effectiveStatus c now <;> simp_all
    unfold evaluate
    rw [if_pos hA, if_neg hanyrev, if_pos hanyexp]

/-- Witness for C5 at a concrete input: with one revoked and one expired
consent and none active at time 5, the verdict is `denied` and the reported
reason is `revoked` (the tie-break). -/
theorem denial_reason_precision_witness :
    (evaluate [cRevoked, cExpired] ConsentType.view 5).result = Verdict.denied ∧
    (evaluate [cRevoked, cExpired] ConsentType.view 5).reason = Reason.revoked :=
  ⟨(denial_reason_precision [cRevoked, cExpired] ConsentType.view 5 (by decide)).1,
   (denial_reason_precision [cRevoked, cExpired] ConsentType.view 5 (by decide)).2.2.1
     ⟨cRevoked, by simp, by decide⟩⟩

theorem checkAndLog_storageOk (s : SystemState) (req : AccessRequest) (now : Nat) :
    ((checkAndLog s req now).2).audit.storageOk = s.audit.storageOk := by
  unfold checkAndLog AuditLog.append
  cases parseConsentType req.action with
  | none => rfl
  | some act =>
    cases hok : s.audit.storageOk <;> simp [hok]

theorem checkAndLog_entries_ok (s : SystemState) (req : AccessRequest) (now : Nat)
    (hok : s.audit.storageOk = true)
    (hsome : (parseConsentType req.action).isSome) :
    ∃ e, ((checkAndLog s req now).2).audit.entries = s.audit.entries ++ [e] := by
  obtain ⟨act, hact⟩ := Option.isSome_iff_exists.mp hsome
  unfold checkAndLog AuditLog.append
  rw [hact]
  simp [hok]

theorem runAll_entries (reqs : List (AccessRequest × Nat)) :
    ∀ s : SystemState, s.audit.storageOk = true →
    (∀ r ∈ reqs, (parseConsentType r.1.action).isSome) →
    ∃ l, (runAll s reqs).audit.entries = s.audit.entries ++ l ∧
      l.length = reqs.length := by
  induction reqs with
  | nil =>
    intro s _ _
    exact ⟨[], by simp [runAll], rfl⟩
  | cons rt rest ih =>
    rcases rt with ⟨r, t⟩
    intro s hok hwf
    obtain ⟨e, he⟩ := checkAndLog_entries_ok s r t hok (hwf ⟨r, t⟩ (by simp))
    have hok' : ((checkAndLog s r t).2).audit.storageOk = true := by
      rw [checkAndLog_storageOk, hok]
    obtain ⟨l, hl, hlen⟩ := ih (checkAndLog s r t).2 hok'
      (fun x hx => hwf x (List.mem_cons_of_mem _ hx))
    refine ⟨e :: l, ?_, by simp [hlen]⟩
    rw [show runAll s ((r, t) :: rest) = runAll (checkAndLog s r t).2 rest from rfl,
      hl, he]
    simp

/-- C3: across any sequence of successfully validated `CheckAndLog` calls
against working storage, the audit log gains exactly one entry per call, with
all previously appended entries unchanged (the old log is a prefix of the new
one); and neither `Grant` nor `Revoke` ever touches the audit log. -/
theorem audit_append_only (s : SystemState) (reqs : List (AccessRequest × Nat))
    (hok : s.audit.storageOk = true)
    (hwf : ∀ r ∈ reqs, (parseConsentType r.1.action).isSome) :
    (∃ l, (runAll s reqs).audit.entries = s.audit.entries ++ l ∧
      l.length = reqs.length)
    ∧ (∀ pid fid ct purpose expires now,
        ((grant s pid fid ct purpose expires now).2).audit = s.audit)
    ∧ (∀ cid now, ((revoke s cid now).2).audit = s.audit) := by
  refine ⟨runAll_entries reqs s hok hwf, ?_, ?_⟩
  · intro pid fid ct purpose expires now
    unfold grant
    split
    · rfl
    · split <;> rfl
  · intro cid now
    unfold revoke
    split
    · rfl
    · split <;> rfl

/-- Witness for C3 at a concrete input: two `view` checks against the sample
state append exactly two entries to an initially empty audit log. -/
theorem audit_append_only_witness :
    ∃ l, (runAll sampleState [(reqView, 5), (reqViewF2, 6)]).audit.entries =
      sampleState.audit.entries ++ l ∧ l.length = 2 :=
  (audit_append_only sampleState [(reqView, 5), (reqViewF2, 6)] rfl (by decide)).1

/-- C4: if the audit append fails, the whole `CheckAndLog` request fails with
`AuditWriteError` and no verdict is released; conversely any released verdict
comes with its audit entry appended to the log. -/
theorem audit_failure_fatal (s : SystemState) (req : AccessRequest) (now : Nat) :
    (s.audit.storageOk = false → (parseConsentType req.action).isSome →
      checkAndLog s req now = (.error CoreError.auditWriteError, s))
    ∧ (∀ d s', checkAndLog s req now = (.ok d, s') →
        ∃ e, s'.audit.entries = s.audit.entries ++ [e] ∧
          e.result = d.result ∧ e.reason = d.reason) := by
  constructor
  · intro hbad hsome
    obtain ⟨act, hact⟩ := Option.isSome_iff_exists.mp hsome
    unfold checkAndLog AuditLog.append
    rw [hact]
    simp [hbad]
  · intro d s' h
    unfold checkAndLog AuditLog.append at h
    cases hp : parseConsentType req.action with
    | none =>
      rw [hp] at h
      simp at h
    | some act =>
      rw [hp] at h
      cases hok : s.audit.storageOk with
      | false => simp [hok] at h
      | true =>
        simp only [hok, if_true] at h
        rw [Prod.mk.injEq] at h
        obtain ⟨h1, h2⟩ := h
        rw [Except.ok.injEq] at h1
        subst h1
        subst h2
        exact ⟨_, rfl, rfl, rfl⟩

/-- Witness for C4 at concrete inputs: with storage down the sample request
fails whole with `AuditWriteError`; with storage up the released allowed
verdict has its entry appended. -/
theorem audit_failure_fatal_witness :
    checkAndLog downState reqView 7 = (.error CoreError.auditWriteError, downState) ∧
    ∃ e, ((checkAndLog sampleState reqView 7).2).audit.entries =
      sampleState.audit.entries ++ [e] ∧
      e.result = Verdict.allowed ∧ e.reason = Reason.consent_sufficient :=
  ⟨(audit_failure_fatal downState reqView 7).1 rfl (by decide),
   (audit_failure_fatal sampleState reqView 7).2 ⟨.allowed, .consent_sufficient⟩
     ((checkAndLog sampleState reqView 7).2) rfl⟩

/-- C6: for a well-formed request against working storage, `CheckAndLog`
returns the evaluator's decision as a normal `ok` result — a denial is a
successful outcome with a reason code, never an error. -/
theorem denied_is_normal_result (s : SystemState) (req : AccessRequest) (now : Nat)
    (act : ConsentType) (hact : parseConsentType req.action = some act)
    (hok : s.audit.storageOk = true) :
    (checkAndLog s req now).1 =
      Except.ok (evaluate (findForPair s req.patient_id req.facility_id) act now) := by
  unfold checkAndLog AuditLog.append
  rw [hact]
  simp [hok]

/-- Witness for C6 at a concrete input: a check on the consent-less pair
(P1, F2) is denied with `no_consent`, yet returned as an `ok` result. -/
theorem denied_is_normal_result_witness :
    (checkAndLog sampleState reqViewF2 7).1 =
      Except.ok (⟨Verdict.denied, Reason.no_consent⟩ : Decision) := by
  rw [denied_is_normal_result sampleState reqViewF2 7 ConsentType.view rfl rfl]
  exact congrArg Except.ok (by decide)

theorem find?_map_revoked (l : List Consent) (cid : Nat) (c' : Consent)
    (hc' : c'.consent_id = cid) (hfound : ∃ c ∈ l, c.consent_id = cid) :
    (l.map (fun x => if x.consent_id = cid then c' else x)).find?
      (fun x => decide (x.consent_id = cid)) = some c' := by
  induction l with
  | nil => simp at hfound
  | cons a l ih =>
    simp only [List.map_cons]
    by_cases h : a.consent_id = cid
    · rw [if_pos h]
      exact List.find?_cons_of_pos _ (by simp [hc'])
    · rw [if_neg h, List.find?_cons_of_neg _ (by simp [h])]
      apply ih
      rcases hfound with ⟨c, hc, hcid⟩
      rcases List.mem_cons.mp hc with rfl | hmem
      · exact absurd hcid h
      · exact ⟨c, hmem, hcid⟩

theorem revoke_mapped (l : List Consent) (n : Nat) (a : AuditLog) (cid : Nat)
    (c' : Consent) (hc' : c'.consent_id = cid) (hrev : c'.revoked_at.isSome)
    (hfound : ∃ c ∈ l, c.consent_id = cid) (t : Nat) :
    revoke ⟨l.map (fun x => if x.consent_id = cid then c' else x), n, a⟩ cid t =
      (.error CoreError.conflictError,
       ⟨l.map (fun x => if x.consent_id = cid then c' else x), n, a⟩) := by
  unfold revoke
  rw [find?_map_revoked l cid c' hc' hfound]
  dsimp only
  rw [if_pos hrev]

/-- C7: `Revoke` fails with `NotFoundError` when no consent has the id,
fails with `ConflictError` when the found consent is already revoked,
and otherwise sets `revoked_at := now`; a second revoke of the same id then
fails with `ConflictError`, and every failing call leaves the state (and in
particular the audit log, which `revoke` never touches) unchanged. -/
theorem revoke_semantics (s : SystemState) (cid now : Nat) :
    ((∀ c ∈ s.consents, c.consent_id ≠ cid) →
      revoke s cid now = (.error CoreError.notFoundError, s))
    ∧ (∀ c, s.consents.find? (fun x => decide (x.consent_id = cid)) = some c →
        c.revoked_at.isSome →
        revoke s cid now = (.error CoreError.conflictError, s))
    ∧ (∀ c, s.consents.find? (fun x => decide (x.consent_id = cid)) = some c →
        c.revoked_at = none →
        ∃ c', revoke s cid now = (.ok c',
          { s with consents := (s.consents.map
              (fun x => if x.consent_id = cid then c' else x)) }) ∧
          c'.revoked_at = some now ∧ c'.consent_id = cid)
    ∧ (∀ c' s2, revoke s cid now = (.ok c', s2) → ∀ t,
        (revoke s2 cid t).1 = .error CoreError.conflictError ∧
        (revoke s2 cid t).2 = s2)
    ∧ (∀ e, (revoke s cid now).1 = .error e → (revoke s cid now).2 = s) := by
  refine ⟨?_, ?_, ?_, ?_, ?_⟩
  · intro h
    have hf : s.consents.find? (fun x => decide (x.consent_id = cid)) = none := by
      rw [List.find?_eq_none]
      intro c hc
      simp [h c hc]
    unfold revoke
    rw [hf]
  · intro c hf hrev
    unfold revoke
    rw [hf]
    dsimp only
    rw [if_pos hrev]
  · intro c hf hnone
    unfold revoke
    rw [hf]
    dsimp only
    rw [if_neg (show ¬ (c.revoked_at.isSome = true) by simp [hnone])]
    refine ⟨_, rfl, rfl, ?_⟩
    simpa using List.find?_some hf
  · intro c' s2 h t
    unfold revoke at h
    split at h
    · simp at h
    · rename_i c hf
      split at h
      · simp at h
      · rename_i hrev
        rw [Prod.mk.injEq] at h
        obtain ⟨h1, h2⟩ := h
        rw [Except.ok.injEq] at h1
        subst h1
        subst h2
        have hcid : c.consent_id = cid := by simpa using List.find?_some hf
        have heq := revoke_mapped s.consents s.nextConsentId s.audit cid
          { c with revoked_at := some now, status := ConsentStatus.revoked }
          (by simpa using hcid) (by simp)
          ⟨c, List.mem_of_find?_eq_some hf, hcid⟩ t
        exact ⟨by rw [heq], by rw [heq]⟩
  · intro e h
    unfold revoke
    split
    · rfl
    · rename_i c hf
      split
      · rfl
      · rename_i hrev
        unfold revoke at h
        rw [hf] at h
        dsimp only at h
        rw [if_neg hrev] at h
        simp at h

/-- Witness for C7 at concrete inputs: revoking the sample active consent
(id 2) succeeds and stamps `revoked_at = 9`; revoking it again fails with
`ConflictError`; revoking a missing id fails with `NotFoundError` and leaves
the state unchanged. -/
theorem revoke_semantics_witness :
    (∃ c', revoke sampleState 2 9 = (.ok c',
      { sampleState with consents := (sampleState.consents.map
          (fun x => if x.consent_id = 2 then c' else x)) }) ∧
      c'.revoked_at = some 9 ∧ c'.consent_id = 2) ∧
    (revoke (revoke sampleState 2 9).2 2 10).1 = .error CoreError.conflictError ∧
    revoke sampleState 99 9 = (.error CoreError.notFoundError, sampleState) :=
  ⟨(revoke_semantics sampleState 2 9).2.2.1 cView rfl rfl,
   ((revoke_semantics sampleState 2 9).2.2.2.1
      ⟨2, "P1", "F1", ConsentType.view, 0, none, some 9, "checkup", ConsentStatus.revoked⟩
      ((revoke sampleState 2 9).2) rfl 10).1,
   (revoke_semantics sampleState 99 9).1 (by decide)⟩

/-- C8: `Grant` with a recognized consent type and an absent or strictly
future expiry creates a new consent with `revoked_at = None`, appended to the
store irrespective of existing consents for the pair (duplicates allowed);
any other input fails with `ValidationError` and changes no state. -/
theorem grant_semantics (s : SystemState) (pid fid ctype purpose : String)
    (expires : Option Nat) (now : Nat) :
    ((∃ ct, parseConsentType ctype = some ct) →
      (∀ e, expires = some e → now < e) →
      ∃ c, grant s pid fid ctype purpose expires now =
        (.ok c, { s with consents := (s.consents ++ [c]),
                         nextConsentId := (s.nextConsentId + 1) }) ∧
        c.revoked_at = none ∧ c.patient_id = pid ∧ c.facility_id = fid ∧
        parseConsentType ctype = some c.consent_type ∧ c.expires_at = expires)
    ∧ ((parseConsentType ctype = none ∨ ∃ e, expires = some e ∧ e ≤ now) →
        grant s pid fid ctype purpose expires now =
          (.error CoreError.validationError, s)) := by
  constructor
  · rintro ⟨ct, hct⟩ hexp
    unfold grant
    rw [hct]
    have hv : expires.any (fun e => decide (e ≤ now)) = false := by
      cases hx : expires with
      | none => rfl
      | some e => simp [Option.any, Nat.not_le.mpr (hexp e hx)]
    dsimp only
    rw [if_neg (show ¬ (expires.any (fun e => decide (e ≤ now)) = true) by simp [hv])]
    exact ⟨_, rfl, rfl, rfl, rfl, rfl, rfl⟩
  · intro h
    unfold grant
    rcases h with h | ⟨e, he, hle⟩
    · rw [h]
    · cases hp : parseConsentType ctype with
      | none => rfl
      | some ct =>
        have hv : expires.any (fun x => decide (x ≤ now)) = true := by
          subst he
          simp [Option.any, hle]
        dsimp only
        rw [if_pos hv]

/-- Witness for C8 at concrete inputs: granting `edit` to (P1, F1) — a pair
that already holds a `view` consent — succeeds with a fresh unrevoked
consent; an unknown type and a non-future expiry each fail with
`ValidationError` leaving the state unchanged. -/
theorem grant_semantics_witness :
    (∃ c, grant sampleState "P1" "F1" "edit" "care" (some 20) 5 =
      (.ok c, { sampleState with consents := (sampleState.consents ++ [c]),
                                 nextConsentId := (sampleState.nextConsentId + 1) }) ∧
      c.revoked_at = none ∧ c.patient_id = "P1" ∧ c.facility_id = "F1" ∧
      parseConsentType "edit" = some c.consent_type ∧ c.expires_at = some 20) ∧
    grant sampleState "P1" "F1" "admin" "care" none 5 =
      (.error CoreError.validationError, sampleState) ∧
    grant sampleState "P1" "F1" "view" "care" (some 3) 5 =
      (.error CoreError.validationError, sampleState) :=
  ⟨(grant_semantics sampleState "P1" "F1" "edit" "care" (some 20) 5).1
     ⟨ConsentType.edit, by decide⟩ (by simp),
   (grant_semantics sampleState "P1" "F1" "admin" "care" none 5).2
     (Or.inl (by decide)),
   (grant_semantics sampleState "P1" "F1" "view" "care" (some 3) 5).2
     (Or.inr ⟨3, rfl, by decide⟩)⟩

/-- C9: `PrivateRoute` renders its protected children iff loading is over,
a user is present, and the user's role is in `allowedRoles`; with no user it
redirects to `/login`, and with a disallowed user it redirects to that role's
own dashboard, or `/login` for an unrecognized role. -/
theorem private_route_access (loading : Bool) (user : Option UserProfile)
    (allowedRoles : List String) :
    (privateRoute loading user allowedRoles = RouteRender.children ↔
      loading = false ∧ ∃ u, user = some u ∧ u.user.role ∈ allowedRoles)
    ∧ (loading = false → user = none →
        privateRoute loading user allowedRoles = RouteRender.redirect "/login")
    ∧ (loading = false → ∀ u, user = some u → u.user.role ∉ allowedRoles →
        privateRoute loading user allowedRoles = RouteRender.redirect
          (if u.user.role = "patient" then "/patient"
           else if u.user.role = "healthcare_worker" then "/worker"
           else if u.user.role = "admin" then "/admin" else "/login")) := by
  refine ⟨?_, ?_, ?_⟩
  · cases loading with
    | true => simp [privateRoute]
    | false =>
      cases user with
      | none => simp [privateRoute]
      | some u =>
        by_cases h : u.user.role ∈ allowedRoles <;> simp [privateRoute, h]
  · intro h1 h2
    subst h1
    subst h2
    simp [privateRoute]
  · intro h1 u h2 h
    subst h1
    subst h2
    have hpr : privateRoute false (some u) allowedRoles =
        RouteRender.redirect ((dashboardMap u.user.role).getD "/login") := by
      simp [privateRoute, h]
    rw [hpr]
    unfold dashboardMap
    split_ifs <;> rfl

/-- Witness for C9 at concrete inputs: with loading over, no user redirects
to `/login`, and a healthcare worker visiting a patient-only route is
redirected to `/worker`. -/
theorem private_route_access_witness :
    privateRoute false none ["patient"] = RouteRender.redirect "/login" ∧
    privateRoute false (some ⟨⟨"healthcare_worker"⟩⟩) ["patient"] =
      RouteRender.redirect "/worker" := by
  constructor
  · exact (private_route_access false none ["patient"]).2.1 rfl rfl
  · rw [(private_route_access false (some ⟨⟨"healthcare_worker"⟩⟩) ["patient"]).2.2
      rfl ⟨⟨"healthcare_worker"⟩⟩ rfl (by decide)]
    rfl

theorem mem_removeField {l : List (String × String)} {k : String}
    {kv : String × String} :
    kv ∈ removeField l k ↔ kv ∈ l ∧ kv.1 ≠ k := by
  simp [removeField, List.mem_filter]

theorem buildRegisterData_mem (f : RegisterForm) (kv : String × String)
    (h : kv ∈ buildRegisterData f) :
    kv.1 ≠ "confirmPassword" ∧
    (f.role ≠ "patient" → kv.1 ≠ "first_name" ∧ kv.1 ≠ "last_name" ∧
      kv.1 ≠ "national_id" ∧ kv.1 ≠ "date_of_birth") ∧
    (f.role ≠ "healthcare_worker" → kv.1 ≠ "facility_id" ∧
      kv.1 ≠ "license_number" ∧ kv.1 ≠ "job_title") := by
  unfold buildRegisterData at h
  split_ifs at h <;> simp only [mem_removeField] at h <;> tauto

/-- C10: whenever the registration form submits (calls `register`), the
password matched its confirmation and the selected role's required fields
were non-empty; and the submitted payload never contains `confirmPassword`,
never contains the patient-only fields for a non-patient role, and never
contains the worker-only fields for a non-worker role. -/
theorem register_submit_payload (f : RegisterForm) (p : List (String × String))
    (h : handleSubmit f = some p) :
    f.password = f.confirmPassword
    ∧ (f.role = "patient" → f.first_name ≠ "" ∧ f.last_name ≠ "" ∧
        f.national_id ≠ "" ∧ f.date_of_birth ≠ "")
    ∧ (f.role = "healthcare_worker" → f.facility_id ≠ "" ∧
        f.license_number ≠ "" ∧ f.job_title ≠ "")
    ∧ (∀ v, ("confirmPassword", v) ∉ p)
    ∧ (f.role ≠ "patient" → ∀ k v,
        (k = "first_name" ∨ k = "last_name" ∨ k = "national_id" ∨
          k = "date_of_birth") → (k, v) ∉ p)
    ∧ (f.role ≠ "healthcare_worker" → ∀ k v,
        (k = "facility_id" ∨ k = "license_number" ∨ k = "job_title") →
        (k, v) ∉ p) := by
  unfold handleSubmit at h
  split_ifs at h with h1 h2 h3
  rw [Option.some.injEq] at h
  subst h
  refine ⟨not_ne_iff.mp h1, ?_, ?_, ?_, ?_, ?_⟩
  · intro hrole
    exact ⟨fun he => h2 ⟨hrole, Or.inl he⟩,
      fun he => h2 ⟨hrole, Or.inr (Or.inl he)⟩,
      fun he => h2 ⟨hrole, Or.inr (Or.inr (Or.inl he))⟩,
      fun he => h2 ⟨hrole, Or.inr (Or.inr (Or.inr he))⟩⟩
  · intro hrole
    exact ⟨fun he => h3 ⟨hrole, Or.inl he⟩,
      fun he => h3 ⟨hrole, Or.inr (Or.inl he)⟩,
      fun he => h3 ⟨hrole, Or.inr (Or.inr he)⟩⟩
  · intro v hv
    exact (buildRegisterData_mem f ("confirmPassword", v) hv).1 rfl
  · intro hrole k v hk hkv
    have hm := (buildRegisterData_mem f (k, v) hkv).2.1 hrole
    rcases hk with rfl | rfl | rfl | rfl
    · exact hm.1 rfl
    · exact hm.2.1 rfl
    · exact hm.2.2.1 rfl
    · exact hm.2.2.2 rfl
  · intro hrole k v hk hkv
    have hm := (buildRegisterData_mem f (k, v) hkv).2.2 hrole
    rcases hk with rfl | rfl | rfl
    · exact hm.1 rfl
    · exact hm.2.1 rfl
    · exact hm.2.2 rfl

/-- Witness for C10 at a concrete input: the sample admin form submits, its
password matches the confirmation, and the resulting payload carries no
`confirmPassword` field. -/
theorem register_submit_payload_witness :
    sampleForm.password = sampleForm.confirmPassword ∧
    (∀ v, ("confirmPassword", v) ∉ buildRegisterData sampleForm) := by
  have h := register_submit_payload sampleForm (buildRegisterData sampleForm) rfl
  exact ⟨h.1, h.2.2.2.1⟩

end PMS
